import Mathlib

/-!
# Verification of the optionflow strategy-recommendation core

Shallow embedding, in Lean 4, of the pure computational core of the
`optionflow` options-strategy recommender:

* the strategy generators and ranking pipeline of
  `src/lib/enhancedStrategyEngine.js` and of the real-price pipeline
  (`generateStrategiesWithRealPrices` and friends),
* the composite scoring engine of `src/lib/scoringSystem.js`,
* the volatility / probability model of `src/lib/taScore.js`
  (`calculateVolatilityRange`, `calculateProbabilityInRange`, `normalCDF`),
* the option-chain nearest-strike matcher (`findOptionByStrike`).

JavaScript numbers are modelled as exact rationals (`ℚ`) for the strategy
and scoring pipeline, and as reals (`ℝ`) for the volatility model, whose
formulas use `Math.sqrt` and `Math.exp`.  `Math.round` is `round`
(`⌊x + 1/2⌋`, which matches the ECMAScript tie-toward-+∞ behaviour),
`Math.ceil` is `Int.ceil`, `Math.max`/`Math.min` are `max`/`min`.
JavaScript's falsy-input guards (`!x`) are modelled as zero tests (plus
`Option` for possibly-missing arguments where a claim is about missing
inputs); `NaN` is not modelled.  Presentation-only fields of the candidate
objects (the `reasoning` string arrays and the per-leg `strikes`/`prices`
display maps) and fields never read by the verified code paths are elided
from the records; all numeric fields that the pipeline reads or the claims
mention are embedded.
-/

namespace OptionFlow

/-- Trend / direction categories (`'bullish' | 'bearish' | 'neutral'` strings
in the source, used both for the TA trend and for candidate direction). -/
inductive Trend where
  | bullish
  | bearish
  | neutral
deriving DecidableEq, Repr

/-- Gamma environment reported by the GEX feed. -/
inductive GammaEnv where
  | positive
  | negative
  | neutral
deriving DecidableEq, Repr

/-- Strategy type tags (the `type` field of the JS candidate objects). -/
inductive StratType where
  | iron_condor
  | vertical_spread
  | butterfly
  | cash_secured_put
  | calendar_spread
  | diagonal_spread
  | credit_spread
deriving DecidableEq, Repr

/-- Seller/buyer classification (the `strategyType` field). -/
inductive StratSide where
  | seller
  | buyer
deriving DecidableEq, Repr

/-- Rank tier marker: `['🥇','🥈','🥉'][i] || '📊'`. -/
inductive Medal where
  | gold
  | silver
  | bronze
  | chart
deriving DecidableEq, Repr

/-- One quoted option contract, as produced by `parseOptionsChain`.  Only the
fields read by the embedded generators (`strike`, `mid`) are modelled. -/
structure OptionQuote where
  strike : ℚ
  mid : ℚ := 0
deriving DecidableEq, Repr

/-- A parsed options chain: call and put sides. -/
structure Chain where
  calls : List OptionQuote
  puts : List OptionQuote
deriving DecidableEq, Repr

/-- The `oneSigma` sub-object of the volatility range consumed by the
strategy engines. -/
structure OneSigma where
  upper : ℚ
  lower : ℚ
deriving DecidableEq, Repr

/-- `volatilityRange` parameter of the strategy engines. -/
structure VolRange where
  oneSigma : OneSigma
deriving DecidableEq, Repr

/-- Technical-analysis summary (`taScore`). -/
structure TaData where
  score : ℚ
  trend : Trend
deriving DecidableEq, Repr

/-- IV-rank summary (`ivRank`). -/
structure IvrData where
  ivRank : ℚ
deriving DecidableEq, Repr

/-- Gamma-exposure summary (`gexData`). -/
structure GexData where
  zero_gamma : ℚ := 0
  gamma_environment : GammaEnv := .neutral
  available : Bool := false
deriving DecidableEq, Repr

/-- The parameter object consumed by `generateAllStrategies` and by
`generateStrategiesWithRealPrices` (the latter also reads `optionsChain`). -/
structure EngineParams where
  currentPrice : ℚ
  atmIV : ℚ
  dte : ℤ
  volatilityRange : VolRange
  gexData : GexData
  taScore : TaData
  ivRank : IvrData
  optionsChain : Chain := ⟨[], []⟩
deriving DecidableEq, Repr

/-- A strategy candidate.  This is the union of the fields the two engine
revisions put on their candidate objects (JS objects are heterogeneous;
fields a given generator does not set are defaulted and never read for such
candidates).  `score`, `rank` and `medal` are written by the
scoring/ranking stage, modelling the JS in-place mutation. -/
structure Strategy where
  name : String := ""
  type : StratType
  direction : Trend := .neutral
  strategyType : StratSide := .seller
  contracts : ℤ
  netCredit : ℚ := 0
  netDebit : ℚ := 0
  maxProfit : ℚ := 0
  maxRisk : ℚ := 0
  winRate : ℚ
  roc : ℤ := 0
  usingRealPrices : Bool := true
  score : ℤ := 0
  rank : ℤ := 0
  medal : Medal := .chart
deriving DecidableEq, Repr

/-! ## Ranker

Both pipeline revisions end with the same ranking stage
(`enhancedStrategyEngine.js` lines 47-55 and the real-price aggregator's
lines 460-469):

```js
strategies.sort((a, b) => b.score - a.score);
strategies.forEach((s, i) => {
  s.rank = i + 1;
  s.medal = ['🥇', '🥈', '🥉'][i] || '📊';
});
return strategies.slice(0, 3);
```

ECMAScript `Array.prototype.sort` is a stable sort, and with the comparator
`b.score - a.score` its output is the unique score-non-increasing stable
permutation of the input; we model it by insertion sort under the relation
"has score ≥". -/

/-- The sort relation used by the ranker: `a` may precede `b`. -/
def byScoreDesc (a b : Strategy) : Prop := b.score ≤ a.score

instance : DecidableRel byScoreDesc := fun a b =>
  inferInstanceAs (Decidable (b.score ≤ a.score))

instance : IsTotal Strategy byScoreDesc := ⟨fun a b => le_total b.score a.score⟩

instance : IsTrans Strategy byScoreDesc := ⟨fun _ _ _ h1 h2 => le_trans h2 h1⟩

/-- `strategies.sort((a, b) => b.score - a.score)`: stable sort by score
descending. -/
def sortByScoreDesc (l : List Strategy) : List Strategy :=
  List.insertionSort byScoreDesc l

/-- `['🥇','🥈','🥉'][i] || '📊'` for the 0-based position `i`. -/
def medalFor (i : ℕ) : Medal :=
  if i = 0 then .gold else if i = 1 then .silver
  else if i = 2 then .bronze else .chart

/-- `strategies.forEach((s, i) => { s.rank = i + 1; s.medal = ... })`,
starting from 0-based position `i`. -/
def markRanks : ℕ → List Strategy → List Strategy
  | _, [] => []
  | i, s :: rest =>
    { s with rank := (i : ℤ) + 1, medal := medalFor i } :: markRanks (i + 1) rest

/-- The full ranking stage: stable sort by score descending, assign
`rank = i + 1` and the medal, truncate to the top 3 (`slice(0, 3)`). -/
def rankStrategies (l : List Strategy) : List Strategy :=
  (markRanks 0 (sortByScoreDesc l)).take 3

/-! ## Strategy catalog (`src/lib/enhancedStrategyEngine.js`)

The per-leg `strikes` display map and the `reasoning` strings are
presentation-only and elided; strike values that feed a number the pipeline
reads (e.g. the cash-secured-put sell strike, which enters `maxRisk`) are
embedded. -/

/-- Per-contract credit estimate of the iron-condor generator
(`atmIV * currentPrice * 0.025`). -/
def creditPerContractIC (p : EngineParams) : ℚ := p.atmIV * p.currentPrice * 0.025

/-- `generateIronCondor` (estimated mode). -/
def generateIronCondor (p : EngineParams) : Strategy :=
  let creditPerContract := creditPerContractIC p
  let contracts : ℤ := ⌈(150 : ℚ) / creditPerContract⌉
  let netCredit : ℚ := (round (creditPerContract * (contracts : ℚ)) : ℤ)
  let maxRisk : ℚ := 10 * 100 * (contracts : ℚ) - netCredit
  { name := "铁鹰策略"
    type := .iron_condor
    direction := .neutral
    strategyType := .seller
    contracts := contracts
    netCredit := netCredit
    maxRisk := maxRisk
    winRate := 68 + (if p.ivRank.ivRank > 70 then 7 else if p.ivRank.ivRank > 50 then 4 else 0)
    roc := round (netCredit / maxRisk * 100) }

/-- Per-contract credit estimate of the vertical-spread generator
(`atmIV * currentPrice * 0.018`). -/
def creditPerContractVS (p : EngineParams) : ℚ := p.atmIV * p.currentPrice * 0.018

/-- `generateVerticalSpread` (estimated mode). -/
def generateVerticalSpread (p : EngineParams) : Strategy :=
  let isBullish := p.taScore.trend = .bullish ∨ p.taScore.trend = .neutral
  let spreadWidth : ℚ := 10
  let creditPerContract := creditPerContractVS p
  let contracts : ℤ := ⌈(150 : ℚ) / creditPerContract⌉
  let netCredit : ℚ := (round (creditPerContract * (contracts : ℚ)) : ℤ)
  let maxRisk : ℚ := spreadWidth * 100 * (contracts : ℚ) - netCredit
  { name := if isBullish then "看涨信用价差" else "看跌信用价差"
    type := .vertical_spread
    direction := if isBullish then .bullish else .bearish
    strategyType := .seller
    contracts := contracts
    netCredit := netCredit
    maxRisk := maxRisk
    winRate := 72 + (if p.ivRank.ivRank > 60 then 5 else 0)
    roc := round (netCredit / maxRisk * 100) }

/-- Per-contract debit estimate of the butterfly generator
(`atmIV * currentPrice * 0.012`). -/
def debitPerContractBF (p : EngineParams) : ℚ := p.atmIV * p.currentPrice * 0.012

/-- `generateButterfly` (estimated mode).  Note that, unlike the credit
generators, its contract count divides the 150 floor by
`wingWidth*100 - debitPerContract`, not by the per-contract premium. -/
def generateButterfly (p : EngineParams) : Strategy :=
  let wingWidth : ℚ := 10
  let debitPerContract := debitPerContractBF p
  let contracts : ℤ := ⌈(150 : ℚ) / (wingWidth * 100 - debitPerContract)⌉
  let netDebit : ℚ := (round (debitPerContract * (contracts : ℚ)) : ℤ)
  let maxProfit : ℚ := wingWidth * 100 * (contracts : ℚ) - netDebit
  { name := "蝶式策略"
    type := .butterfly
    direction := .neutral
    strategyType := .buyer
    contracts := contracts
    netDebit := netDebit
    maxProfit := maxProfit
    maxRisk := netDebit
    winRate := 55 + (if p.ivRank.ivRank < 40 then 10 else 0)
    roc := round (maxProfit / netDebit * 100) }

/-- `generateCashSecuredPut` (estimated mode). -/
def generateCashSecuredPut (p : EngineParams) : Strategy :=
  let sellStrike : ℚ := (round (p.currentPrice * 0.95 / 5) : ℤ) * 5
  let creditPerContract := p.atmIV * p.currentPrice * 0.012
  let contracts : ℤ := ⌈(150 : ℚ) / creditPerContract⌉
  let netCredit : ℚ := (round (creditPerContract * (contracts : ℚ)) : ℤ)
  let maxRisk : ℚ := sellStrike * 100 * (contracts : ℚ) - netCredit
  { name := "现金担保看跌"
    type := .cash_secured_put
    direction := .bullish
    strategyType := .seller
    contracts := contracts
    netCredit := netCredit
    maxRisk := maxRisk
    winRate := 76
    roc := round (netCredit / maxRisk * 100) }

/-- `generateCalendarSpread` (estimated mode). -/
def generateCalendarSpread (p : EngineParams) : Strategy :=
  let shortCredit := p.atmIV * p.currentPrice * 0.015
  let longDebit := p.atmIV * p.currentPrice * 0.022
  let netDebit := longDebit - shortCredit
  let contracts : ℤ := ⌈(150 : ℚ) / (shortCredit * 0.7)⌉
  let netDebitTotal : ℚ := (round (netDebit * (contracts : ℚ)) : ℤ)
  let maxProfit : ℚ := (round (shortCredit * 0.7 * (contracts : ℚ)) : ℤ)
  { name := "日历价差"
    type := .calendar_spread
    direction := .neutral
    strategyType := .buyer
    contracts := contracts
    netDebit := netDebitTotal
    maxProfit := maxProfit
    maxRisk := netDebitTotal
    winRate := 62
    roc := round (maxProfit / netDebitTotal * 100) }

/-- `generateDiagonalSpread` (estimated mode). -/
def generateDiagonalSpread (p : EngineParams) : Strategy :=
  let isBullish := p.taScore.trend = .bullish
  let shortCredit := p.atmIV * p.currentPrice * 0.014
  let longDebit := p.atmIV * p.currentPrice * 0.020
  let netDebit := longDebit - shortCredit
  let contracts : ℤ := ⌈(150 : ℚ) / (shortCredit * 0.6)⌉
  let netDebitTotal : ℚ := (round (netDebit * (contracts : ℚ)) : ℤ)
  let maxProfit : ℚ := (round (shortCredit * 0.6 * (contracts : ℚ)) : ℤ)
  { name := if isBullish then "看涨对角价差" else "看跌对角价差"
    type := .diagonal_spread
    direction := if isBullish then .bullish else .bearish
    strategyType := .buyer
    contracts := contracts
    netDebit := netDebitTotal
    maxProfit := maxProfit
    maxRisk := netDebitTotal
    winRate := 58
    roc := round (maxProfit / netDebitTotal * 100) }

/-- `calculateScore` of `enhancedStrategyEngine.js` (seven weighted factors,
clamped to [0,100] and rounded). -/
def calculateScore (strategy : Strategy) (ivRank : IvrData) (taScore : TaData)
    (gexData : GexData) : ℤ :=
  let s1 : ℚ := strategy.winRate / 100 * 25
  let s2 : ℚ := min ((strategy.roc : ℚ) / 50 * 20) 20
  let s3 : ℚ := taScore.score / 100 * 15
  let s4 : ℚ :=
    if strategy.strategyType = .seller then
      if ivRank.ivRank ≥ 70 then 15 else if ivRank.ivRank ≥ 50 then 12
      else if ivRank.ivRank ≥ 30 then 8 else 4
    else
      if ivRank.ivRank < 30 then 15 else if ivRank.ivRank < 50 then 10 else 5
  let s5 : ℚ :=
    if strategy.direction = .neutral then 10
    else if strategy.direction = taScore.trend then 10
    else if strategy.direction ≠ taScore.trend ∧ taScore.trend ≠ .neutral then 3
    else 7
  let s6 : ℚ :=
    if gexData.available then
      if strategy.type = .iron_condor ∧ gexData.gamma_environment = .positive then 10
      else if strategy.strategyType = .buyer ∧ gexData.gamma_environment = .negative then 10
      else 6
    else 5
  let s7 : ℚ := 5
  round (max 0 (min 100 (s1 + s2 + s3 + s4 + s5 + s6 + s7)))

/-- The list of candidates `generateAllStrategies` pushes, before scoring,
sorting and truncation: one candidate per strategy type whose eligibility
gate passes, in source order. -/
def generatedStrategies (p : EngineParams) : List Strategy :=
  (if p.ivRank.ivRank ≥ 45 then [generateIronCondor p] else []) ++
  [generateVerticalSpread p] ++
  (if p.ivRank.ivRank ≤ 60 then [generateButterfly p] else []) ++
  (if p.taScore.trend ≠ .bearish then [generateCashSecuredPut p] else []) ++
  (if p.dte ≥ 7 then [generateCalendarSpread p] else []) ++
  (if p.dte ≥ 7 ∧ p.taScore.trend ≠ .neutral then [generateDiagonalSpread p] else [])

/-- `generateAllStrategies`: gate-filtered generation, scoring, ranking. -/
def generateAllStrategies (p : EngineParams) : List Strategy :=
  rankStrategies ((generatedStrategies p).map
    (fun s => { s with score := calculateScore s p.ivRank p.taScore p.gexData }))

/-! ## Scoring engine (`src/lib/scoringSystem.js`) -/

/-- Earnings-proximity flag. -/
structure Earnings where
  hasEarningsNear : Bool
deriving DecidableEq, Repr

/-- The `marketData` object consumed by `scoreAndRankStrategies`.
`gexData` and `earnings` may be absent (the JS checks `!gexData` and uses
`earnings?.`). -/
structure ScoringContext where
  ivRank : IvrData
  taScore : TaData
  gexData : Option GexData := none
  earnings : Option Earnings := none
deriving DecidableEq, Repr

/-- `calculateIVRScore`: IV-rank fit, weight 15. -/
def calculateIVRScore (strategy : Strategy) (ivRank : IvrData) : ℚ :=
  let ivr := ivRank.ivRank
  if strategy.type = .iron_condor ∨ strategy.type = .credit_spread ∨
      strategy.type = .cash_secured_put then
    if ivr ≥ 75 then 15 else if ivr ≥ 50 then 12 else if ivr ≥ 25 then 8 else 4
  else
    if ivr < 25 then 15 else if ivr < 50 then 10 else 5

/-- `calculateGEXScore`: gamma-environment fit, weight 10.  A missing GEX
object (`!gexData || !gexData.gamma_environment`) yields the flat value 5. -/
def calculateGEXScore (strategy : Strategy) (gexData : Option GexData) : ℚ :=
  match gexData with
  | none => 5
  | some g =>
    if strategy.type = .iron_condor ∨ strategy.type = .credit_spread ∨
        strategy.type = .cash_secured_put then
      if g.gamma_environment = .positive then 10 else 6
    else
      if g.gamma_environment = .negative then 10 else 6

/-- `calculateStrategyScore`: the six weighted factors plus the flat
liquidity/Greeks terms, minus the earnings penalty, clamped to [0,100]. -/
def calculateStrategyScore (strategy : Strategy) (context : ScoringContext) : ℚ :=
  let winRateScore := strategy.winRate / 100 * 25
  let rocScore := min ((strategy.roc : ℚ) / 50 * 20) 20
  let taScore := context.taScore.score / 100 * 15
  let ivrScore := calculateIVRScore strategy context.ivRank
  let gexScore := calculateGEXScore strategy context.gexData
  let liquidityScore : ℚ := 10
  let greeksScore : ℚ := 5
  let total := winRateScore + rocScore + taScore + ivrScore + gexScore +
    liquidityScore + greeksScore
  let total :=
    if (match context.earnings with
        | some e => e.hasEarningsNear
        | none => false) then total - 10 else total
  max 0 (min 100 total)

/-- `scoreAndRankStrategies`: round each candidate's clamped score onto the
candidate, then stable-sort by score descending. -/
def scoreAndRankStrategies (strategies : List Strategy)
    (marketData : ScoringContext) : List Strategy :=
  sortByScoreDesc (strategies.map
    (fun s => { s with score := round (calculateStrategyScore s marketData) }))

/-! ## Real-price pipeline (main API aggregator,
`generateStrategiesWithRealPrices` and helpers) -/

/-- The reducer of `findOptionByStrike`: keep the incumbent `closest` unless
`option` is strictly closer to the target strike. -/
def closerOf (targetStrike : ℚ) (closest option : OptionQuote) : OptionQuote :=
  if |option.strike - targetStrike| < |closest.strike - targetStrike| then option
  else closest

/-- `findOptionByStrike(options, targetStrike)`: `null` on an empty side,
otherwise a left-to-right `reduce` with `closerOf` (seeded, as in JS
`reduce` without an initial value, with the first element). -/
def findOptionByStrike (options : List OptionQuote) (targetStrike : ℚ) :
    Option OptionQuote :=
  match options with
  | [] => none
  | x :: xs => some (xs.foldl (closerOf targetStrike) x)

/-- `generateFallbackStrategy`: the estimated iron condor emitted when no
real-price candidate could be built, flagged `usingRealPrices: false`. -/
def generateFallbackStrategy (params : EngineParams) : Strategy :=
  let credit := params.atmIV * params.currentPrice * 0.025
  let contracts : ℤ := ⌈(150 : ℚ) / credit⌉
  let netCredit : ℚ := (round (credit * (contracts : ℚ)) : ℤ)
  let maxRisk : ℚ := 10 * 100 * (contracts : ℚ) - netCredit
  { name := "铁鹰策略（估算）"
    type := .iron_condor
    contracts := contracts
    netCredit := netCredit
    maxRisk := maxRisk
    winRate := 68
    roc := round (netCredit / maxRisk * 100)
    usingRealPrices := false }

/-- `calcScore` of the real-price aggregator. -/
def calcScore (s : Strategy) (ivr : IvrData) (ta : TaData) (gex : GexData) : ℤ :=
  let isSeller := s.type = .iron_condor ∨ s.type = .vertical_spread ∨
    s.type = .cash_secured_put
  let t1 : ℚ := s.winRate / 100 * 25
  let t2 : ℚ := min ((s.roc : ℚ) / 50 * 20) 20
  let t3 : ℚ := ta.score / 100 * 15
  let t4 : ℚ :=
    if isSeller then
      if ivr.ivRank ≥ 70 then 15 else if ivr.ivRank ≥ 50 then 12 else 8
    else
      if ivr.ivRank < 30 then 15 else if ivr.ivRank < 50 then 10 else 5
  let t5 : ℚ := 10
  let t6 : ℚ :=
    if gex.available ∧ s.type = .iron_condor ∧ gex.gamma_environment = .positive
    then 10 else 6
  let t7 : ℚ := if s.usingRealPrices then 5 else 3
  round (max 0 (min 100 (t1 + t2 + t3 + t4 + t5 + t6 + t7)))

/-- The iron-condor branch of `generateStrategiesWithRealPrices` (pushed only
when `ivRank >= 45 && hasOptions` and all four legs resolve). -/
def icRealBranch (params : EngineParams) : List Strategy :=
  let putSellStrike : ℚ := (round (params.volatilityRange.oneSigma.lower / 5) : ℤ) * 5
  let putBuyStrike : ℚ := putSellStrike - 10
  let callSellStrike : ℚ := (round (params.volatilityRange.oneSigma.upper / 5) : ℤ) * 5
  let callBuyStrike : ℚ := callSellStrike + 10
  match findOptionByStrike params.optionsChain.puts putSellStrike,
      findOptionByStrike params.optionsChain.puts putBuyStrike,
      findOptionByStrike params.optionsChain.calls callSellStrike,
      findOptionByStrike params.optionsChain.calls callBuyStrike with
  | some putSellOpt, some putBuyOpt, some callSellOpt, some callBuyOpt =>
    let creditPerContract :=
      (putSellOpt.mid - putBuyOpt.mid + callSellOpt.mid - callBuyOpt.mid) * 100
    let contracts : ℤ := max 1 ⌈(150 : ℚ) / creditPerContract⌉
    let netCredit : ℚ := (round (creditPerContract * (contracts : ℚ)) : ℤ)
    let maxRisk : ℚ :=
      (round ((putSellStrike - putBuyStrike) * 100 * (contracts : ℚ) - netCredit) : ℤ)
    [{ name := "铁鹰策略"
       type := .iron_condor
       contracts := contracts
       netCredit := netCredit
       maxRisk := maxRisk
       winRate := 68 + (if params.ivRank.ivRank > 70 then 7 else 4)
       roc := round (netCredit / maxRisk * 100)
       usingRealPrices := true }]
  | _, _, _, _ => []

/-- The vertical-spread branch of `generateStrategiesWithRealPrices`. -/
def vsRealBranch (params : EngineParams) : List Strategy :=
  let isBullish := params.taScore.trend = .bullish ∨ params.taScore.trend = .neutral
  let sellStrike : ℚ :=
    if isBullish then (round (params.volatilityRange.oneSigma.lower / 5) : ℤ) * 5
    else (round (params.volatilityRange.oneSigma.upper / 5) : ℤ) * 5
  let buyStrike : ℚ := if isBullish then sellStrike - 10 else sellStrike + 10
  let sellOpt :=
    if isBullish then findOptionByStrike params.optionsChain.puts sellStrike
    else findOptionByStrike params.optionsChain.calls sellStrike
  let buyOpt :=
    if isBullish then findOptionByStrike params.optionsChain.puts buyStrike
    else findOptionByStrike params.optionsChain.calls buyStrike
  match sellOpt, buyOpt with
  | some sOpt, some bOpt =>
    let creditPerContract := (sOpt.mid - bOpt.mid) * 100
    let contracts : ℤ := max 1 ⌈(150 : ℚ) / creditPerContract⌉
    let netCredit : ℚ := (round (creditPerContract * (contracts : ℚ)) : ℤ)
    let maxRisk : ℚ :=
      (round (|sellStrike - buyStrike| * 100 * (contracts : ℚ) - netCredit) : ℤ)
    [{ name := if isBullish then "看涨信用价差" else "看跌信用价差"
       type := .vertical_spread
       contracts := contracts
       netCredit := netCredit
       maxRisk := maxRisk
       winRate := 72 + (if params.ivRank.ivRank > 60 then 8 else 0)
       roc := round (netCredit / maxRisk * 100)
       usingRealPrices := true }]
  | _, _ => []

/-- The cash-secured-put branch of `generateStrategiesWithRealPrices`. -/
def cspRealBranch (params : EngineParams) : List Strategy :=
  let sellStrike : ℚ := (round (params.currentPrice * 0.95 / 5) : ℤ) * 5
  match findOptionByStrike params.optionsChain.puts sellStrike with
  | some sellOpt =>
    let creditPerContract := sellOpt.mid * 100
    let contracts : ℤ := max 1 ⌈(150 : ℚ) / creditPerContract⌉
    let netCredit : ℚ := (round (creditPerContract * (contracts : ℚ)) : ℤ)
    let maxRisk : ℚ :=
      (round (sellOpt.strike * 100 * (contracts : ℚ) - netCredit) : ℤ)
    [{ name := "现金担保看跌"
       type := .cash_secured_put
       contracts := contracts
       netCredit := netCredit
       maxRisk := maxRisk
       winRate := 76
       roc := round (netCredit / maxRisk * 100)
       usingRealPrices := true }]
  | _ => []

/-- `generateStrategiesWithRealPrices`: gate each real-price branch on its
eligibility plus `hasOptions` (both chain sides non-empty); if no candidate
at all was produced, push the single estimated fallback; then score, stable
sort, rank/medal and truncate to the top 3. -/
def generateStrategiesWithRealPrices (params : EngineParams) : List Strategy :=
  let hasOptions :=
    0 < params.optionsChain.calls.length ∧ 0 < params.optionsChain.puts.length
  let strategies :=
    (if 45 ≤ params.ivRank.ivRank ∧ hasOptions then icRealBranch params else []) ++
    (if hasOptions then vsRealBranch params else []) ++
    (if params.taScore.trend ≠ .bearish ∧ hasOptions then cspRealBranch params
     else [])
  let strategies :=
    if strategies = [] then [generateFallbackStrategy params] else strategies
  rankStrategies (strategies.map
    (fun s => { s with score := calcScore s params.ivRank params.taScore params.gexData }))

/-- Concrete engine input exhibiting the butterfly sizing behaviour:
`atmIV = 1/3`, `currentPrice = 500`, so `debitPerContract = 2`. -/
def c2Params : EngineParams :=
  { currentPrice := 500
    atmIV := 1/3
    dte := 7
    volatilityRange := ⟨⟨520, 480⟩⟩
    gexData := {}
    taScore := ⟨55, .neutral⟩
    ivRank := ⟨50⟩ }

/-- Witness input for the amended C2: `atmIV = 0.3`, `currentPrice = 100`. -/
def c2WitnessParams : EngineParams :=
  { currentPrice := 100
    atmIV := 3/10
    dte := 7
    volatilityRange := ⟨⟨110, 90⟩⟩
    gexData := {}
    taScore := ⟨55, .neutral⟩
    ivRank := ⟨50⟩ }

/-- Demo inputs for the C3 witness. -/
def c3Strategy : Strategy := { type := .iron_condor, contracts := 1, winRate := 68 }

def c3Context : ScoringContext := { ivRank := ⟨60⟩, taScore := ⟨55, .neutral⟩ }

/-- The C9 witness side list: two contracts equally distant from the target
strike 105; the reduction keeps the first one. -/
def c9Options : List OptionQuote := [⟨100, 1⟩, ⟨110, 2⟩]

/-- A market snapshot in real-price mode whose options chain is empty, with
a neutral trend (so the cash-secured-put gate passes) and `ivRank = 50`
(so the iron-condor gate passes). -/
def c4Params : EngineParams :=
  { currentPrice := 100
    atmIV := 3/10
    dte := 7
    volatilityRange := ⟨⟨110, 90⟩⟩
    gexData := {}
    taScore := ⟨55, .neutral⟩
    ivRank := ⟨50⟩
    optionsChain := ⟨[], []⟩ }

/-- A C1 demo list: two candidates with equal scores. -/
def c1List : List Strategy :=
  [{ type := .butterfly, contracts := 2, winRate := 55, score := 40 },
   { type := .iron_condor, contracts := 1, winRate := 68, score := 40 }]

/-! ## Volatility model (`src/lib/taScore.js`, volatility-analysis module)

Modelled over `ℝ` because the source uses `Math.sqrt` and `Math.exp`.
The inputs of `calculateVolatilityRange` are `Option ℝ` so that a missing
(JS `undefined`) argument is expressible; the falsy guard
`!currentPrice || !iv || !dte` maps a missing or zero argument to the
`null` result.  (`NaN` is outside the model.)  The human-readable
`interpretation` string is elided. -/

/-- One sigma band of the returned volatility analysis (all numeric fields
are rounded to 2 decimals by the source; `probability` is the fixed
theoretical coverage constant). -/
structure SigmaBand where
  upper : ℝ
  lower : ℝ
  move : ℝ
  percent : ℝ
  probability : ℝ
deriving Inhabited

/-- Result record of `calculateVolatilityRange`. -/
structure VolatilityRange where
  currentPrice : ℝ
  iv : ℝ
  dte : ℝ
  oneSigma : SigmaBand
  twoSigma : SigmaBand
deriving Inhabited

/-- `Math.round(x * 100) / 100`: round to 2 decimals. -/
noncomputable def round2 (x : ℝ) : ℝ := (round (x * 100) : ℤ) / 100

/-- `calculateVolatilityRange(currentPrice, iv, dte)`. -/
noncomputable def calculateVolatilityRange (currentPrice iv dte : Option ℝ) :
    Option VolatilityRange :=
  match currentPrice, iv, dte with
  | some p, some v, some d =>
    if p = 0 ∨ v = 0 ∨ d = 0 then none
    else
      let timeFactor := Real.sqrt (d / 365)
      let oneSigmaMove := p * v * timeFactor
      let oneSigmaUpper := p + oneSigmaMove
      let oneSigmaLower := p - oneSigmaMove
      let twoSigmaMove := oneSigmaMove * 2
      let twoSigmaUpper := p + twoSigmaMove
      let twoSigmaLower := p - twoSigmaMove
      let oneSigmaPercent := oneSigmaMove / p * 100
      let twoSigmaPercent := twoSigmaMove / p * 100
      some
        { currentPrice := p
          iv := v
          dte := d
          oneSigma :=
            { upper := round2 oneSigmaUpper
              lower := round2 oneSigmaLower
              move := round2 oneSigmaMove
              percent := round2 oneSigmaPercent
              probability := 68.2 }
          twoSigma :=
            { upper := round2 twoSigmaUpper
              lower := round2 twoSigmaLower
              move := round2 twoSigmaMove
              percent := round2 twoSigmaPercent
              probability := 95.4 } }
  | _, _, _ => none

/-- The band computed for all-present inputs (defaulted if the guard
refuses), for stating claims without existential quantifiers. -/
noncomputable def bandOf (p v d : ℝ) : VolatilityRange :=
  (calculateVolatilityRange (some p) (some v) (some d)).getD default

/-- The bracket polynomial of `normalCDF`, multiplied by its leading `t`
(so `normalCDF`'s `t * (b1 + t * (...))` core): used to reason about the
Abramowitz-Stegun approximation. -/
noncomputable def Spoly (t : ℝ) : ℝ :=
  t * (0.3193815 + t * (-0.3565638 + t * (1.781478 + t * (-1.821256 + t * 1.330274))))

/-- The derivative of `Spoly`. -/
noncomputable def Rpoly (t : ℝ) : ℝ :=
  0.3193815 - 0.7131276 * t + 5.344434 * t^2 - 7.285024 * t^3 + 6.65137 * t^4

/-- The substitution `t = 1 / (1 + 0.2316419 z)` of `normalCDF` (for
non-negative `z`, i.e. with `|z| = z`). -/
noncomputable def uAS (z : ℝ) : ℝ := 1 / (1 + 0.2316419 * z)

/-- The upper-tail expression of `normalCDF` for a non-negative argument:
`0.3989423 · exp(−z²/2) · Spoly(uAS z)`.  `normalCDF z` equals
`asTail (−z)` for `z ≤ 0` and `1 − asTail z` for `z > 0`. -/
noncomputable def asTail (z : ℝ) : ℝ :=
  0.3989423 * Real.exp (-(z * z) / 2) * Spoly (uAS z)

/-- `normalCDF(z)`: the fixed-coefficient Abramowitz-Stegun rational
approximation of the standard normal CDF used by the source. -/
noncomputable def normalCDF (z : ℝ) : ℝ :=
  let t := 1 / (1 + 0.2316419 * |z|)
  let d := 0.3989423 * Real.exp (-(z * z) / 2)
  let prob := d * t *
    (0.3193815 + t * (-0.3565638 + t * (1.781478 + t * (-1.821256 + t * 1.330274))))
  if z > 0 then 1 - prob else prob

/-- `calculateProbabilityInRange(currentPrice, lowerBound, upperBound, iv,
dte)`: falsy guard, z-scores, CDF difference clamped to [0,1]. -/
noncomputable def calculateProbabilityInRange
    (currentPrice lowerBound upperBound iv dte : ℝ) : Option ℝ :=
  if currentPrice = 0 ∨ lowerBound = 0 ∨ upperBound = 0 ∨ iv = 0 ∨ dte = 0 then
    none
  else
    let sigma := currentPrice * iv * Real.sqrt (dte / 365)
    let zLower := (lowerBound - currentPrice) / sigma
    let zUpper := (upperBound - currentPrice) / sigma
    some (max 0 (min 1 (normalCDF zUpper - normalCDF zLower)))

/-- The band the source returns for price 100, iv 0.00001, dte 365: the
exact 1σ move is 0.001, which the 2-decimal rounding collapses to 0. -/
noncomputable def c6Band : VolatilityRange := bandOf 100 (1/100000) 365

/-! ### Ranker lemmas -/

lemma length_sortByScoreDesc (l : List Strategy) :
    (sortByScoreDesc l).length = l.length :=
  (List.perm_insertionSort byScoreDesc l).length_eq

lemma filter_orderedInsert_score (x : Strategy) (l : List Strategy) (s : ℤ) :
    (List.orderedInsert byScoreDesc x l).filter (fun c => c.score = s) =
      if x.score = s then x :: l.filter (fun c => c.score = s)
      else l.filter (fun c => c.score = s) := by
  induction l with
  | nil =>
    by_cases hx : x.score = s <;>
      simp [List.orderedInsert, List.filter, hx]
  | cons b bs ih =>
    rw [List.orderedInsert]
    by_cases hxb : byScoreDesc x b
    · rw [if_pos hxb]
      by_cases hx : x.score = s <;> by_cases hb : b.score = s <;>
        simp [List.filter_cons, hx, hb]
    · rw [if_neg hxb]
      have hlt : x.score < b.score := by
        simpa [byScoreDesc] using hxb
      by_cases hx : x.score = s
      · have hb : ¬ b.score = s := by
          intro hb
          rw [hx, ← hb] at hlt
          exact lt_irrefl _ hlt
        simp [List.filter_cons, hb, ih, hx]
      · by_cases hb : b.score = s <;>
          simp [List.filter_cons, hb, ih, hx]

/-- Stability of the ranker's sort: for every score value, the candidates
attaining it appear in the sorted list exactly in their original order. -/
lemma filter_sortByScoreDesc (l : List Strategy) (s : ℤ) :
    (sortByScoreDesc l).filter (fun c => c.score = s) =
      l.filter (fun c => c.score = s) := by
  induction l with
  | nil => rfl
  | cons x xs ih =>
    show (List.orderedInsert byScoreDesc x (sortByScoreDesc xs)).filter _ = _
    rw [filter_orderedInsert_score]
    by_cases hx : x.score = s <;> simp [List.filter_cons, hx, ih]

lemma markRanks_map_score : ∀ (i : ℕ) (l : List Strategy),
    (markRanks i l).map (fun c => c.score) = l.map (fun c => c.score)
  | _, [] => rfl
  | i, s :: rest => by
    simp [markRanks, markRanks_map_score (i + 1) rest]

lemma markRanks_map_rank : ∀ (i : ℕ) (l : List Strategy),
    (markRanks i l).map (fun c => c.rank) =
      (List.range l.length).map (fun j => ((i + j : ℕ) : ℤ) + 1)
  | _, [] => rfl
  | i, s :: rest => by
    rw [markRanks, List.map_cons, markRanks_map_rank (i + 1) rest,
      List.length_cons, List.range_succ_eq_map, List.map_cons, List.map_map]
    refine congrArg₂ _ (by simp) ?_
    refine List.map_congr_left fun j _ => ?_
    simp only [Function.comp_apply]
    congr 1
    push_cast
    ring

lemma mem_markRanks {c : Strategy} : ∀ {i : ℕ} {l : List Strategy},
    c ∈ markRanks i l →
      ∃ j : ℕ, c.rank = ((i + j : ℕ) : ℤ) + 1 ∧ c.medal = medalFor (i + j) := by
  intro i l
  induction l generalizing i with
  | nil => intro h; cases h
  | cons s rest ih =>
    intro h
    rcases List.mem_cons.1 h with h | h
    · exact ⟨0, by simp [h]⟩
    · obtain ⟨j, hj⟩ := ih h
      exact ⟨j + 1, by simpa [Nat.add_assoc, Nat.add_comm 1 j] using hj⟩

lemma markRanks_length : ∀ (i : ℕ) (l : List Strategy),
    (markRanks i l).length = l.length
  | _, [] => rfl
  | i, s :: rest => by simp [markRanks, markRanks_length (i + 1) rest]

/-- Claim C1: for every input list of scored strategy candidates, the
Ranker's output has length `min 3 N`, its scores are non-increasing, its
ranks are the contiguous integers `1, 2, …`, the underlying sort is stable
(for every score value the candidates attaining it keep their original
relative order) and the output is exactly the rank/medal-marked truncation
of that stable sort, and ranks 1-3 carry the gold/silver/bronze markers.
(The ranking stage is identical in `generateAllStrategies`,
`enhancedStrategyEngine.js` lines 47-55, and in
`generateStrategiesWithRealPrices`, lines 460-469 of the aggregator.) -/
theorem ranker_top3_sorted_stable_ranked (l : List Strategy) :
    (rankStrategies l).length = min 3 l.length ∧
    (rankStrategies l).Pairwise (fun a b => b.score ≤ a.score) ∧
    (rankStrategies l).map (fun c => c.rank) =
      (List.range (min 3 l.length)).map (fun j : ℕ => (j : ℤ) + 1) ∧
    (∀ s : ℤ, (sortByScoreDesc l).filter (fun c => c.score = s) =
      l.filter (fun c => c.score = s)) ∧
    rankStrategies l = (markRanks 0 (sortByScoreDesc l)).take 3 ∧
    (∀ c ∈ rankStrategies l,
      (c.rank = 1 → c.medal = .gold) ∧ (c.rank = 2 → c.medal = .silver) ∧
      (c.rank = 3 → c.medal = .bronze)) := by
  have hlen : (rankStrategies l).length = min 3 l.length := by
    rw [rankStrategies, List.length_take, markRanks_length, length_sortByScoreDesc]
  refine ⟨hlen, ?_, ?_, filter_sortByScoreDesc l, rfl, ?_⟩
  · have hs : (sortByScoreDesc l).Pairwise byScoreDesc :=
      List.sorted_insertionSort byScoreDesc l
    have h1 : ((markRanks 0 (sortByScoreDesc l)).map (fun c => c.score)).Pairwise
        (fun a b : ℤ => b ≤ a) := by
      rw [markRanks_map_score]
      exact List.pairwise_map.2 hs
    have h2 : ((rankStrategies l).map (fun c => c.score)).Pairwise
        (fun a b : ℤ => b ≤ a) := by
      rw [rankStrategies, List.map_take]
      exact h1.sublist (List.take_sublist 3 _)
    exact List.pairwise_map.1 h2
  · rw [rankStrategies, List.map_take, markRanks_map_rank, length_sortByScoreDesc,
      ← List.map_take, List.take_range]
    refine List.map_congr_left fun j _ => ?_
    simp
  · intro c hc
    obtain ⟨j, hr, hm⟩ := mem_markRanks (List.mem_of_mem_take hc)
    simp only [Nat.zero_add] at hr hm
    refine ⟨fun h1 => ?_, fun h2 => ?_, fun h3 => ?_⟩
    · have : j = 0 := by omega
      simp [hm, this, medalFor]
    · have : j = 1 := by omega
      simp [hm, this, medalFor]
    · have : j = 2 := by omega
      simp [hm, this, medalFor]

/-! ## Arithmetic helper lemmas -/

lemma clamp0_100_bounds (x : ℚ) :
    0 ≤ max 0 (min 100 x) ∧ max 0 (min 100 x) ≤ 100 :=
  ⟨le_max_left _ _, max_le (by norm_num) (min_le_left _ _)⟩

lemma round_nonneg_of_nonneg {x : ℚ} (h : 0 ≤ x) : 0 ≤ round x := by
  rw [round_eq]
  exact Int.le_floor.2 (by push_cast; linarith)

lemma round_le_of_le_100 {x : ℚ} (h : x ≤ 100) : round x ≤ 100 := by
  rw [round_eq]
  have : ⌊x + 1 / 2⌋ < 101 := Int.floor_lt.2 (by push_cast; linarith)
  omega

/-- The ceiling-division sizing rule: dividing the 150 floor by a positive
per-contract premium and taking the ceiling gives at least one contract, and
the rounded total premium is at least 150. -/
lemma ceil_sizing {credit : ℚ} (hc : 0 < credit) :
    1 ≤ ⌈(150 : ℚ) / credit⌉ ∧
      (150 : ℚ) ≤ ((round (credit * ((⌈(150 : ℚ) / credit⌉ : ℤ) : ℚ)) : ℤ) : ℚ) := by
  have hpos : 0 < (150 : ℚ) / credit := by positivity
  have h1 : 1 ≤ ⌈(150 : ℚ) / credit⌉ := Int.ceil_pos.2 hpos
  refine ⟨h1, ?_⟩
  have hle : (150 : ℚ) / credit ≤ ((⌈(150 : ℚ) / credit⌉ : ℤ) : ℚ) := Int.le_ceil _
  have h2 : (150 : ℚ) ≤ credit * ((⌈(150 : ℚ) / credit⌉ : ℤ) : ℚ) := by
    have := mul_le_mul_of_nonneg_left hle hc.le
    rwa [mul_div_cancel₀ _ (ne_of_gt hc)] at this
  have h3 : (150 : ℤ) ≤ round (credit * ((⌈(150 : ℚ) / credit⌉ : ℤ) : ℚ)) := by
    rw [round_eq]
    exact Int.le_floor.2 (by push_cast; linarith)
  exact_mod_cast h3

/-! ## Claim C2 -/

/-- Claim C2 counterexample: for the butterfly generator at `c2Params`
(per-contract debit 2), the emitted contract count is 1, not
`⌈150 / netPremiumPerContract⌉ = 75`, and the total net debit is 2 < 150.
The claim is therefore false on the butterfly generator it cites. -/
theorem butterfly_breaks_ceiling_sizing_floor :
    (generateButterfly c2Params).contracts = 1 ∧
    ⌈(150 : ℚ) / debitPerContractBF c2Params⌉ = 75 ∧
    (generateButterfly c2Params).netDebit = 2 ∧
    ¬ ((generateButterfly c2Params).contracts =
          ⌈(150 : ℚ) / debitPerContractBF c2Params⌉ ∧
        150 ≤ (generateButterfly c2Params).netDebit) := by
  have hd : debitPerContractBF c2Params = 2 := by
    norm_num [debitPerContractBF, c2Params]
  have h1 : ⌈(150 : ℚ) / (10 * 100 - debitPerContractBF c2Params)⌉ = 1 := by
    rw [hd, Int.ceil_eq_iff]; norm_num
  have h75 : ⌈(150 : ℚ) / debitPerContractBF c2Params⌉ = 75 := by
    rw [hd, Int.ceil_eq_iff]; norm_num
  have hc : (generateButterfly c2Params).contracts = 1 := by
    simp only [generateButterfly]
    exact h1
  have hn : (generateButterfly c2Params).netDebit = 2 := by
    simp only [generateButterfly]
    rw [h1, hd]
    norm_num [round_eq, Int.floor_eq_iff]
  refine ⟨hc, h75, hn, ?_⟩
  rw [hc, h75, hn]
  norm_num

/-- Claim C2 (amended): the generators that divide the 150 floor by the
per-contract premium — iron condor, vertical spread, cash-secured put —
emit `contracts = ⌈150 / premium⌉ ≥ 1` and a total net credit ≥ 150 (for
positive IV and price).  The butterfly instead divides by
`wingWidth*100 - debitPerContract`; its contract count is still ≥ 1 when
that denominator is positive, but its net debit carries no 150 floor. -/
theorem ceiling_sizing_rule_per_generator (p : EngineParams)
    (hiv : 0 < p.atmIV) (hp : 0 < p.currentPrice)
    (hbf : debitPerContractBF p < 1000) :
    ((generateIronCondor p).contracts = ⌈(150 : ℚ) / creditPerContractIC p⌉ ∧
      1 ≤ (generateIronCondor p).contracts ∧
      150 ≤ (generateIronCondor p).netCredit) ∧
    ((generateVerticalSpread p).contracts = ⌈(150 : ℚ) / creditPerContractVS p⌉ ∧
      1 ≤ (generateVerticalSpread p).contracts ∧
      150 ≤ (generateVerticalSpread p).netCredit) ∧
    ((generateCashSecuredPut p).contracts =
        ⌈(150 : ℚ) / (p.atmIV * p.currentPrice * 0.012)⌉ ∧
      1 ≤ (generateCashSecuredPut p).contracts ∧
      150 ≤ (generateCashSecuredPut p).netCredit) ∧
    ((generateButterfly p).contracts =
        ⌈(150 : ℚ) / (10 * 100 - debitPerContractBF p)⌉ ∧
      1 ≤ (generateButterfly p).contracts) := by
  have hIC : 0 < creditPerContractIC p := by
    unfold creditPerContractIC; positivity
  have hVS : 0 < creditPerContractVS p := by
    unfold creditPerContractVS; positivity
  have hCSP : 0 < p.atmIV * p.currentPrice * 0.012 := by positivity
  have hBF : 0 < (10 : ℚ) * 100 - debitPerContractBF p := by
    norm_num at hbf ⊢; linarith
  refine ⟨⟨rfl, ?_, ?_⟩, ⟨rfl, ?_, ?_⟩, ⟨rfl, ?_, ?_⟩, rfl, ?_⟩
  · exact (ceil_sizing hIC).1
  · exact (ceil_sizing hIC).2
  · exact (ceil_sizing hVS).1
  · exact (ceil_sizing hVS).2
  · exact (ceil_sizing hCSP).1
  · exact (ceil_sizing hCSP).2
  · exact Int.ceil_pos.2 (by positivity)

theorem ceiling_sizing_rule_per_generator_witness :
    ((generateIronCondor c2WitnessParams).contracts =
        ⌈(150 : ℚ) / creditPerContractIC c2WitnessParams⌉ ∧
      1 ≤ (generateIronCondor c2WitnessParams).contracts ∧
      150 ≤ (generateIronCondor c2WitnessParams).netCredit) ∧
    ((generateVerticalSpread c2WitnessParams).contracts =
        ⌈(150 : ℚ) / creditPerContractVS c2WitnessParams⌉ ∧
      1 ≤ (generateVerticalSpread c2WitnessParams).contracts ∧
      150 ≤ (generateVerticalSpread c2WitnessParams).netCredit) ∧
    ((generateCashSecuredPut c2WitnessParams).contracts =
        ⌈(150 : ℚ) / (c2WitnessParams.atmIV * c2WitnessParams.currentPrice * 0.012)⌉ ∧
      1 ≤ (generateCashSecuredPut c2WitnessParams).contracts ∧
      150 ≤ (generateCashSecuredPut c2WitnessParams).netCredit) ∧
    ((generateButterfly c2WitnessParams).contracts =
        ⌈(150 : ℚ) / (10 * 100 - debitPerContractBF c2WitnessParams)⌉ ∧
      1 ≤ (generateButterfly c2WitnessParams).contracts) :=
  ceiling_sizing_rule_per_generator c2WitnessParams
    (by norm_num [c2WitnessParams]) (by norm_num [c2WitnessParams])
    (by norm_num [debitPerContractBF, c2WitnessParams])

/-! ## Claim C3 -/

/-- Claim C3: for every candidate and scoring context, the composite score
is the weighted factor sum (minus the earnings penalty) clamped to [0,100],
and the integer the pipeline stores (its rounding) lies in [0,100]; hence
every candidate coming out of `scoreAndRankStrategies` carries an integer
score in [0,100]. -/
theorem strategyScore_in_unit_range (strategy : Strategy)
    (context : ScoringContext) (l : List Strategy) :
    (0 ≤ calculateStrategyScore strategy context ∧
      calculateStrategyScore strategy context ≤ 100) ∧
    (0 ≤ round (calculateStrategyScore strategy context) ∧
      round (calculateStrategyScore strategy context) ≤ 100) ∧
    (∀ s ∈ scoreAndRankStrategies l context, 0 ≤ s.score ∧ s.score ≤ 100) := by
  have key : ∀ t : Strategy, 0 ≤ calculateStrategyScore t context ∧
      calculateStrategyScore t context ≤ 100 := by
    intro t
    unfold calculateStrategyScore
    exact clamp0_100_bounds _
  refine ⟨key strategy, ?_, ?_⟩
  · exact ⟨round_nonneg_of_nonneg (key strategy).1,
      round_le_of_le_100 (key strategy).2⟩
  · intro s hs
    rw [scoreAndRankStrategies] at hs
    have hmem : s ∈ l.map
        (fun t => { t with score := round (calculateStrategyScore t context) }) :=
      ((List.perm_insertionSort byScoreDesc _).mem_iff).1 hs
    obtain ⟨t, _, rfl⟩ := List.mem_map.1 hmem
    exact ⟨round_nonneg_of_nonneg (key t).1, round_le_of_le_100 (key t).2⟩

theorem strategyScore_in_unit_range_witness :
    (0 ≤ calculateStrategyScore c3Strategy c3Context ∧
      calculateStrategyScore c3Strategy c3Context ≤ 100) ∧
    (0 ≤ round (calculateStrategyScore c3Strategy c3Context) ∧
      round (calculateStrategyScore c3Strategy c3Context) ≤ 100) ∧
    (∀ s ∈ scoreAndRankStrategies [c3Strategy] c3Context,
      0 ≤ s.score ∧ s.score ≤ 100) :=
  strategyScore_in_unit_range c3Strategy c3Context [c3Strategy]

/-! ## Claim C5 -/

/-- Claim C5: `generateAllStrategies` generates, before scoring and
truncation, an Iron Condor candidate iff `ivRank ≥ 45` (the engine's
configured threshold, inside the spec's 40-45 range), a Vertical Spread
always, a Butterfly iff `ivRank ≤ 60`, a Cash-Secured Put iff the trend is
not bearish, a Calendar Spread iff `dte ≥ 7`, and a Diagonal Spread iff
`dte ≥ 7` and the trend is not neutral.  A failed gate merely omits the
candidate (the generation function is total). -/
theorem generatedStrategies_gates (p : EngineParams) :
    ((∃ s ∈ generatedStrategies p, s.type = .iron_condor) ↔
      45 ≤ p.ivRank.ivRank) ∧
    (∃ s ∈ generatedStrategies p, s.type = .vertical_spread) ∧
    ((∃ s ∈ generatedStrategies p, s.type = .butterfly) ↔
      p.ivRank.ivRank ≤ 60) ∧
    ((∃ s ∈ generatedStrategies p, s.type = .cash_secured_put) ↔
      p.taScore.trend ≠ .bearish) ∧
    ((∃ s ∈ generatedStrategies p, s.type = .calendar_spread) ↔ 7 ≤ p.dte) ∧
    ((∃ s ∈ generatedStrategies p, s.type = .diagonal_spread) ↔
      (7 ≤ p.dte ∧ p.taScore.trend ≠ .neutral)) := by
  have hIC : (generateIronCondor p).type = .iron_condor := rfl
  have hVS : (generateVerticalSpread p).type = .vertical_spread := rfl
  have hBF : (generateButterfly p).type = .butterfly := rfl
  have hCSP : (generateCashSecuredPut p).type = .cash_secured_put := rfl
  have hCal : (generateCalendarSpread p).type = .calendar_spread := rfl
  have hDiag : (generateDiagonalSpread p).type = .diagonal_spread := rfl
  unfold generatedStrategies
  split_ifs with g1 g2 g3 g4 g5 <;>
    simp_all [List.mem_append]

/-- Witness for C5 at a concrete snapshot (`ivRank 50`, neutral trend,
`dte 7`): iron condor, vertical spread, butterfly, cash-secured put and
calendar spread generated; diagonal spread omitted. -/
theorem generatedStrategies_gates_witness :
    (∃ s ∈ generatedStrategies c2WitnessParams, s.type = .iron_condor) ∧
    (∃ s ∈ generatedStrategies c2WitnessParams, s.type = .vertical_spread) ∧
    ¬ (∃ s ∈ generatedStrategies c2WitnessParams, s.type = .diagonal_spread) := by
  have h := generatedStrategies_gates c2WitnessParams
  refine ⟨h.1.2 (by norm_num [c2WitnessParams]), h.2.1, ?_⟩
  intro hx
  have := (h.2.2.2.2.2).1 hx
  simp [c2WitnessParams] at this

/-! ## Claim C9 -/

lemma foldl_closerOf_spec (t : ℚ) (xs : List OptionQuote) (a : OptionQuote) :
    (xs.foldl (closerOf t) a = a ∨ xs.foldl (closerOf t) a ∈ xs) ∧
    |(xs.foldl (closerOf t) a).strike - t| ≤ |a.strike - t| ∧
    (∀ o ∈ xs, |(xs.foldl (closerOf t) a).strike - t| ≤ |o.strike - t|) ∧
    (∃ l1 l2, a :: xs = l1 ++ (xs.foldl (closerOf t) a) :: l2 ∧
      ∀ o ∈ l1, |(xs.foldl (closerOf t) a).strike - t| < |o.strike - t|) := by
  induction xs generalizing a with
  | nil =>
    exact ⟨Or.inl rfl, le_refl _, by simp, ⟨[], [], rfl, by simp⟩⟩
  | cons x xs ih =>
    rw [List.foldl_cons]
    by_cases hx : |x.strike - t| < |a.strike - t|
    · have hax : closerOf t a x = x := if_pos hx
      rw [hax]
      obtain ⟨hmem, hle, hall, l1, l2, hsplit, hstrict⟩ := ih x
      refine ⟨?_, hle.trans hx.le, ?_, a :: l1, l2, ?_, ?_⟩
      · rcases hmem with h | h
        · exact Or.inr (List.mem_cons.2 (Or.inl h))
        · exact Or.inr (List.mem_cons_of_mem x h)
      · intro o ho
        rcases List.mem_cons.1 ho with rfl | ho
        · exact hle
        · exact hall o ho
      · rw [List.cons_append, ← hsplit]
      · intro o ho
        rcases List.mem_cons.1 ho with rfl | ho
        · exact hle.trans_lt hx
        · exact hstrict o ho
    · have hax : closerOf t a x = a := if_neg hx
      push_neg at hx
      rw [hax]
      obtain ⟨hmem, hle, hall, l1, l2, hsplit, hstrict⟩ := ih a
      refine ⟨?_, hle, ?_, ?_⟩
      · rcases hmem with h | h
        · exact Or.inl h
        · exact Or.inr (List.mem_cons_of_mem x h)
      · intro o ho
        rcases List.mem_cons.1 ho with rfl | ho
        · exact hle.trans hx
        · exact hall o ho
      · cases l1 with
        | nil =>
          have he : a = xs.foldl (closerOf t) a ∧ xs = l2 := by
            simpa using hsplit
          exact ⟨[], x :: xs, by rw [← he.1]; simp, by simp⟩
        | cons b l1x =>
          have hb : a = b ∧ xs = l1x ++ (xs.foldl (closerOf t) a) :: l2 := by
            simpa using hsplit
          have hstrict_a : |(xs.foldl (closerOf t) a).strike - t| < |a.strike - t| := by
            have := hstrict b (List.mem_cons_self b l1x)
            rwa [← hb.1] at this
          refine ⟨a :: x :: l1x, l2, ?_, ?_⟩
          · rw [List.cons_append, List.cons_append, ← hb.2]
          · intro o ho
            rcases List.mem_cons.1 ho with rfl | ho
            · exact hstrict_a
            · rcases List.mem_cons.1 ho with rfl | ho
              · exact hstrict_a.trans_le hx
              · exact hstrict o (List.mem_cons_of_mem b ho)

/-- Claim C9: on an empty side list `findOptionByStrike` fails (returns
`none`); on a non-empty side list it returns the contract minimizing the
absolute strike distance to the target, and among equally distant
contracts the first-encountered one of the left-to-right reduction (every
contract preceding the result is strictly farther from the target). -/
theorem findOptionByStrike_nearest_first (options : List OptionQuote)
    (targetStrike : ℚ) (h : options ≠ []) :
    findOptionByStrike [] targetStrike = none ∧
    ∃ r, findOptionByStrike options targetStrike = some r ∧ r ∈ options ∧
      (∀ o ∈ options, |r.strike - targetStrike| ≤ |o.strike - targetStrike|) ∧
      ∃ l1 l2, options = l1 ++ r :: l2 ∧
        ∀ o ∈ l1, |r.strike - targetStrike| < |o.strike - targetStrike| := by
  refine ⟨rfl, ?_⟩
  cases options with
  | nil => exact absurd rfl h
  | cons x xs =>
    obtain ⟨hmem, hle, hall, hpre⟩ := foldl_closerOf_spec targetStrike xs x
    refine ⟨xs.foldl (closerOf targetStrike) x, rfl, ?_, ?_, hpre⟩
    · rcases hmem with h' | h'
      · exact List.mem_cons.2 (Or.inl h')
      · exact List.mem_cons_of_mem x h'
    · intro o ho
      rcases List.mem_cons.1 ho with rfl | ho
      · exact hle
      · exact hall o ho

theorem findOptionByStrike_nearest_first_witness :
    findOptionByStrike [] 105 = none ∧
    ∃ r, findOptionByStrike c9Options 105 = some r ∧ r ∈ c9Options ∧
      (∀ o ∈ c9Options, |r.strike - 105| ≤ |o.strike - 105|) ∧
      ∃ l1 l2, c9Options = l1 ++ r :: l2 ∧
        ∀ o ∈ l1, |r.strike - 105| < |o.strike - 105| :=
  findOptionByStrike_nearest_first c9Options 105 (by simp [c9Options])

/-! ## Claim C4 -/

/-- Claim C4 counterexample: at `c4Params` the cash-secured-put and
vertical-spread generators cannot resolve their legs (the chain is empty),
yet the pipeline's output contains no cash-secured-put and no
vertical-spread candidate — the per-strategy generators silently omit
their candidates instead of falling back to estimated pricing.  The single
output element is the global iron-condor-style fallback. -/
theorem unresolved_leg_omits_candidate :
    (generateStrategiesWithRealPrices c4Params).map (fun s => s.type) =
      [.iron_condor] ∧
    (generateStrategiesWithRealPrices c4Params).map (fun s => s.usingRealPrices) =
      [false] ∧
    (generateStrategiesWithRealPrices c4Params).filter
      (fun s => s.type == StratType.cash_secured_put) = [] ∧
    (generateStrategiesWithRealPrices c4Params).filter
      (fun s => s.type == StratType.vertical_spread) = [] := by
  simp [generateStrategiesWithRealPrices, c4Params, rankStrategies,
    sortByScoreDesc, List.insertionSort, markRanks, medalFor,
    generateFallbackStrategy]

/-- Claim C4 (amended): a leg can only be unresolvable when a whole chain
side is empty (`hasOptions` false, since `findOptionByStrike` is total on
non-empty sides); in that case every per-strategy real-price generator
omits its candidate, and the pipeline instead emits exactly one global
fallback candidate — an estimated iron condor flagged
`usingRealPrices = false`, ranked 1 — rather than per-strategy
estimated-mode candidates. -/
theorem empty_chain_single_fallback (params : EngineParams)
    (h : params.optionsChain.calls = [] ∨ params.optionsChain.puts = []) :
    (generateStrategiesWithRealPrices params).map (fun s => s.type) =
      [.iron_condor] ∧
    (generateStrategiesWithRealPrices params).map (fun s => s.usingRealPrices) =
      [false] ∧
    (generateStrategiesWithRealPrices params).map (fun s => s.rank) = [1] ∧
    (generateStrategiesWithRealPrices params).filter
      (fun s => s.type == StratType.cash_secured_put) = [] := by
  rcases h with h | h <;>
    simp [generateStrategiesWithRealPrices, h, rankStrategies, sortByScoreDesc,
      List.insertionSort, markRanks, medalFor, generateFallbackStrategy]

theorem empty_chain_single_fallback_witness :
    (generateStrategiesWithRealPrices c4Params).map (fun s => s.type) =
      [.iron_condor] ∧
    (generateStrategiesWithRealPrices c4Params).map (fun s => s.usingRealPrices) =
      [false] ∧
    (generateStrategiesWithRealPrices c4Params).map (fun s => s.rank) = [1] ∧
    (generateStrategiesWithRealPrices c4Params).filter
      (fun s => s.type == StratType.cash_secured_put) = [] :=
  empty_chain_single_fallback c4Params (Or.inl rfl)

theorem ranker_top3_sorted_stable_ranked_witness :
    (rankStrategies c1List).length = min 3 c1List.length :=
  (ranker_top3_sorted_stable_ranked c1List).1

/-! ## Claim C7 -/

/-- Claim C7 counterexample: a negative price passes the falsy guard
(`!(-100)` is false), so the model happily computes a band instead of
failing: the claim's "missing, zero, or negative" is wrong about
negative inputs. -/
theorem negative_price_not_refused :
    calculateVolatilityRange (some (-100)) (some (3/10)) (some 365) ≠ none := by
  have hcond : ¬((-100 : ℝ) = 0 ∨ (3/10 : ℝ) = 0 ∨ (365 : ℝ) = 0) := by norm_num
  simp [calculateVolatilityRange, hcond]

/-- Claim C7 (amended): `calculateVolatilityRange` refuses (returns `null`)
exactly when price, iv, or dte is missing or zero; every other input —
negative values included — produces a band. -/
theorem band_guard_iff_missing_or_zero (p v d : Option ℝ) :
    calculateVolatilityRange p v d = none ↔
      p = none ∨ v = none ∨ d = none ∨
        p = some 0 ∨ v = some 0 ∨ d = some 0 := by
  rcases p with _ | p <;> rcases v with _ | v <;> rcases d with _ | d <;>
    simp [calculateVolatilityRange]
  tauto

theorem band_guard_iff_missing_or_zero_witness :
    calculateVolatilityRange (some 100) (some 0) (some 7) = none :=
  (band_guard_iff_missing_or_zero (some 100) (some 0) (some 7)).2
    (by norm_num)

/-! ## Claim C10 -/

/-- Claim C10: the falsy guard of `calculateProbabilityInRange` treats the
numeric value 0 as a missing argument, so a bound equal to 0 always yields
`null` — a one-sided probability with 0 as its finite bound is never
computable through this interface. -/
theorem zero_bound_returns_none (p U L iv d : ℝ) :
    calculateProbabilityInRange p 0 U iv d = none ∧
    calculateProbabilityInRange p L 0 iv d = none := by
  constructor <;> simp [calculateProbabilityInRange]

theorem zero_bound_returns_none_witness :
    calculateProbabilityInRange 100 0 110 (1/2) 7 = none :=
  (zero_bound_returns_none 100 110 90 (1/2) 7).1

/-! ## Claim C8 -/

lemma Rpoly_nonneg (t : ℝ) : 0 ≤ Rpoly t := by
  have hid : Rpoly t =
      (665137/100000) * (t^2 - (1821256/3325685) * t)^2 +
      (5569978576109/1662842500000) * (t - 1185818881203/11139957152218)^2 +
      7837690347044057289/27849892880545000000 := by
    rw [Rpoly]; ring
  rw [hid]
  positivity

lemma hasDerivAt_Spoly (t : ℝ) : HasDerivAt Spoly (Rpoly t) t := by
  have h4 : HasDerivAt (fun s : ℝ => (-1.821256 : ℝ) + s * 1.330274) 1.330274 t := by
    simpa using ((hasDerivAt_id' t).mul_const (1.330274 : ℝ)).const_add (-1.821256 : ℝ)
  have h3 : HasDerivAt (fun s : ℝ => (1.781478 : ℝ) + s * ((-1.821256 : ℝ) + s * 1.330274))
      (1 * ((-1.821256 : ℝ) + t * 1.330274) + t * 1.330274) t :=
    (((hasDerivAt_id' t).mul h4)).const_add (1.781478 : ℝ)
  have h2 : HasDerivAt
      (fun s : ℝ => (-0.3565638 : ℝ) + s * ((1.781478 : ℝ) + s * ((-1.821256 : ℝ) + s * 1.330274)))
      (1 * ((1.781478 : ℝ) + t * ((-1.821256 : ℝ) + t * 1.330274)) +
        t * (1 * ((-1.821256 : ℝ) + t * 1.330274) + t * 1.330274)) t :=
    ((hasDerivAt_id' t).mul h3).const_add (-0.3565638 : ℝ)
  have h1 : HasDerivAt
      (fun s : ℝ => (0.3193815 : ℝ) + s * ((-0.3565638 : ℝ) + s * ((1.781478 : ℝ) + s * ((-1.821256 : ℝ) + s * 1.330274))))
      (1 * ((-0.3565638 : ℝ) + t * ((1.781478 : ℝ) + t * ((-1.821256 : ℝ) + t * 1.330274))) +
        t * (1 * ((1.781478 : ℝ) + t * ((-1.821256 : ℝ) + t * 1.330274)) +
          t * (1 * ((-1.821256 : ℝ) + t * 1.330274) + t * 1.330274))) t :=
    ((hasDerivAt_id' t).mul h2).const_add (0.3193815 : ℝ)
  have h0 := (hasDerivAt_id' t).mul h1
  have : Spoly = fun s : ℝ =>
      s * ((0.3193815 : ℝ) + s * ((-0.3565638 : ℝ) + s * ((1.781478 : ℝ) + s * ((-1.821256 : ℝ) + s * 1.330274)))) := rfl
  rw [this]
  convert h0 using 1
  rw [Rpoly]
  ring

lemma Spoly_monotone : Monotone Spoly :=
  monotone_of_deriv_nonneg (fun t => (hasDerivAt_Spoly t).differentiableAt)
    (fun t => by rw [(hasDerivAt_Spoly t).deriv]; exact Rpoly_nonneg t)

lemma Spoly_zero : Spoly 0 = 0 := by simp [Spoly]

lemma normalCDF_of_nonpos (z : ℝ) (hz : z ≤ 0) : normalCDF z = asTail (-z) := by
  simp only [normalCDF, asTail, uAS, Spoly]
  rw [if_neg (not_lt.2 hz), abs_of_nonpos hz,
    show (-z) * (-z) = z * z from by ring]
  ring

lemma normalCDF_of_pos (z : ℝ) (hz : 0 < z) : normalCDF z = 1 - asTail z := by
  simp only [normalCDF, asTail, uAS, Spoly]
  rw [if_pos hz, abs_of_pos hz]
  ring

lemma uAS_pos {z : ℝ} (hz : 0 ≤ z) : 0 < uAS z := by
  unfold uAS
  have : (0:ℝ) ≤ 0.2316419 * z := by positivity
  apply one_div_pos.2
  linarith

lemma uAS_le_one {z : ℝ} (hz : 0 ≤ z) : uAS z ≤ 1 := by
  unfold uAS
  have h1 : (0:ℝ) ≤ 0.2316419 * z := by positivity
  rw [div_le_one (by linarith)]
  linarith

lemma uAS_anti {z1 z2 : ℝ} (h1 : 0 ≤ z1) (h : z1 ≤ z2) : uAS z2 ≤ uAS z1 := by
  unfold uAS
  have ha : (0:ℝ) ≤ 0.2316419 * z1 := by positivity
  apply one_div_le_one_div_of_le
  · linarith
  · nlinarith

lemma asTail_anti {z1 z2 : ℝ} (h1 : 0 ≤ z1) (h : z1 ≤ z2) :
    asTail z2 ≤ asTail z1 := by
  unfold asTail
  have hS2 : 0 ≤ Spoly (uAS z2) := by
    have := Spoly_monotone (uAS_pos (h1.trans h)).le
    simpa [Spoly_zero] using this
  have hSle : Spoly (uAS z2) ≤ Spoly (uAS z1) := Spoly_monotone (uAS_anti h1 h)
  have hE1 : (0:ℝ) < Real.exp (-(z1 * z1) / 2) := Real.exp_pos _
  have hEle : Real.exp (-(z2 * z2) / 2) ≤ Real.exp (-(z1 * z1) / 2) := by
    apply Real.exp_le_exp.2
    nlinarith
  rw [mul_assoc, mul_assoc]
  exact mul_le_mul_of_nonneg_left (mul_le_mul hEle hSle hS2 hE1.le) (by norm_num)

lemma asTail_zero_lt_half : asTail 0 < 1/2 := by
  have hu : uAS 0 = 1 := by unfold uAS; norm_num
  unfold asTail
  rw [hu]
  norm_num [Spoly, Real.exp_zero]

lemma normalCDF_monotone : Monotone normalCDF := by
  intro z1 z2 h
  rcases le_or_lt z1 0 with h1 | h1
  · rcases le_or_lt z2 0 with h2 | h2
    · rw [normalCDF_of_nonpos z1 h1, normalCDF_of_nonpos z2 h2]
      exact asTail_anti (neg_nonneg.2 h2) (neg_le_neg h)
    · rw [normalCDF_of_nonpos z1 h1, normalCDF_of_pos z2 h2]
      have ha : asTail (-z1) ≤ asTail 0 := asTail_anti le_rfl (neg_nonneg.2 h1)
      have hb : asTail z2 ≤ asTail 0 := asTail_anti le_rfl h2.le
      have hc := asTail_zero_lt_half
      linarith
  · rw [normalCDF_of_pos z1 h1, normalCDF_of_pos z2 (h1.trans_le h)]
    have := asTail_anti h1.le h
    linarith

/-- Claim C8: for positive price, iv, dte and nonzero bounds (the falsy
guard treats a 0 bound as missing, see C10), widening the bounds can only
increase the returned probability, and every returned probability lies in
[0, 1].  The proof rests on global monotonicity of the source's
Abramowitz-Stegun `normalCDF` approximation. -/
theorem probabilityInRange_monotone_clamped
    (p L2 L U U2 iv d : ℝ)
    (hp : 0 < p) (hiv : 0 < iv) (hd : 0 < d)
    (hL2 : L2 ≤ L) (_hLU : L ≤ U) (hU2 : U ≤ U2)
    (hL2z : L2 ≠ 0) (hLz : L ≠ 0) (hUz : U ≠ 0) (hU2z : U2 ≠ 0) :
    (calculateProbabilityInRange p L U iv d).isSome = true ∧
    (calculateProbabilityInRange p L2 U2 iv d).isSome = true ∧
    (calculateProbabilityInRange p L U iv d).getD 0 ≤
      (calculateProbabilityInRange p L2 U2 iv d).getD 0 ∧
    0 ≤ (calculateProbabilityInRange p L U iv d).getD 0 ∧
    (calculateProbabilityInRange p L U iv d).getD 0 ≤ 1 ∧
    0 ≤ (calculateProbabilityInRange p L2 U2 iv d).getD 0 ∧
    (calculateProbabilityInRange p L2 U2 iv d).getD 0 ≤ 1 := by
  have hcond1 : ¬ (p = 0 ∨ L = 0 ∨ U = 0 ∨ iv = 0 ∨ d = 0) := by
    push_neg
    exact ⟨hp.ne', hLz, hUz, hiv.ne', hd.ne'⟩
  have hcond2 : ¬ (p = 0 ∨ L2 = 0 ∨ U2 = 0 ∨ iv = 0 ∨ d = 0) := by
    push_neg
    exact ⟨hp.ne', hL2z, hU2z, hiv.ne', hd.ne'⟩
  have e1 : calculateProbabilityInRange p L U iv d =
      some (max 0 (min 1
        (normalCDF ((U - p) / (p * iv * Real.sqrt (d / 365))) -
          normalCDF ((L - p) / (p * iv * Real.sqrt (d / 365)))))) := by
    unfold calculateProbabilityInRange
    rw [if_neg hcond1]
  have e2 : calculateProbabilityInRange p L2 U2 iv d =
      some (max 0 (min 1
        (normalCDF ((U2 - p) / (p * iv * Real.sqrt (d / 365))) -
          normalCDF ((L2 - p) / (p * iv * Real.sqrt (d / 365)))))) := by
    unfold calculateProbabilityInRange
    rw [if_neg hcond2]
  have hsig : 0 < p * iv * Real.sqrt (d / 365) := by
    have hs : 0 < Real.sqrt (d / 365) := Real.sqrt_pos.2 (by positivity)
    positivity
  have hzL : (L2 - p) / (p * iv * Real.sqrt (d / 365)) ≤
      (L - p) / (p * iv * Real.sqrt (d / 365)) :=
    (div_le_div_iff_of_pos_right hsig).2 (by linarith)
  have hzU : (U - p) / (p * iv * Real.sqrt (d / 365)) ≤
      (U2 - p) / (p * iv * Real.sqrt (d / 365)) :=
    (div_le_div_iff_of_pos_right hsig).2 (by linarith)
  have hFL := normalCDF_monotone hzL
  have hFU := normalCDF_monotone hzU
  have key : normalCDF ((U - p) / (p * iv * Real.sqrt (d / 365))) -
      normalCDF ((L - p) / (p * iv * Real.sqrt (d / 365))) ≤
      normalCDF ((U2 - p) / (p * iv * Real.sqrt (d / 365))) -
        normalCDF ((L2 - p) / (p * iv * Real.sqrt (d / 365))) := by
    linarith
  have hmono : max 0 (min 1
      (normalCDF ((U - p) / (p * iv * Real.sqrt (d / 365))) -
        normalCDF ((L - p) / (p * iv * Real.sqrt (d / 365))))) ≤
      max 0 (min 1
        (normalCDF ((U2 - p) / (p * iv * Real.sqrt (d / 365))) -
          normalCDF ((L2 - p) / (p * iv * Real.sqrt (d / 365))))) :=
    max_le_max le_rfl (min_le_min le_rfl key)
  rw [e1, e2]
  simp only [Option.isSome_some, Option.getD_some]
  refine ⟨trivial, trivial, hmono, le_max_left _ _,
    max_le (by norm_num) (min_le_left _ _), le_max_left _ _,
    max_le (by norm_num) (min_le_left _ _)⟩

/-- Witness for C8: price 100, iv 1/2, dte 365, narrow bounds [90, 110]
inside wide bounds [80, 120]. -/
theorem probabilityInRange_monotone_clamped_witness :
    (calculateProbabilityInRange 100 90 110 (1/2) 365).getD 0 ≤
      (calculateProbabilityInRange 100 80 120 (1/2) 365).getD 0 ∧
    0 ≤ (calculateProbabilityInRange 100 90 110 (1/2) 365).getD 0 ∧
    (calculateProbabilityInRange 100 90 110 (1/2) 365).getD 0 ≤ 1 := by
  have h := probabilityInRange_monotone_clamped 100 80 90 110 120 (1/2) 365
    (by norm_num) (by norm_num) (by norm_num) (by norm_num) (by norm_num)
    (by norm_num) (by norm_num) (by norm_num) (by norm_num) (by norm_num)
  exact ⟨h.2.2.1, h.2.2.2.1, h.2.2.2.2.1⟩

/-! ## Claim C6 -/

/-- Rounding to 2 decimals moves a value by at most 1/200. -/
lemma round2_close (x : ℝ) : |round2 x - x| ≤ 1 / 200 := by
  have h := abs_sub_round (x * 100)
  rw [abs_sub_comm] at h
  have heq : round2 x - x = ((round (x * 100) : ℤ) - x * 100) / 100 := by
    rw [round2]; ring
  rw [heq, abs_div]
  have h100 : |(100 : ℝ)| = 100 := by norm_num
  rw [h100]
  linarith

/-- Claim C6 (amended): for positive price, iv, dte whose exact 1σ move
`price·iv·√(dte/365)` exceeds one cent (the grid step of the 2-decimal
rounding the source applies to the returned band), the returned band
satisfies `lower < price < upper` for 1σ, the 2σ band strictly contains
the 1σ band, and the returned moves are the exact 1σ move (resp. twice
it) rounded to 2 decimals. -/
theorem computeBand_strict_bounds_rounded (p v d : ℝ)
    (hp : 0 < p) (hv : 0 < v) (hd : 0 < d)
    (hm : 1 / 100 < p * v * Real.sqrt (d / 365)) :
    (calculateVolatilityRange (some p) (some v) (some d)).isSome = true ∧
    (bandOf p v d).oneSigma.lower < p ∧
    p < (bandOf p v d).oneSigma.upper ∧
    (bandOf p v d).twoSigma.lower < (bandOf p v d).oneSigma.lower ∧
    (bandOf p v d).oneSigma.upper < (bandOf p v d).twoSigma.upper ∧
    (bandOf p v d).oneSigma.move = round2 (p * v * Real.sqrt (d / 365)) ∧
    (bandOf p v d).twoSigma.move = round2 (p * v * Real.sqrt (d / 365) * 2) := by
  have hcond : ¬ (p = 0 ∨ v = 0 ∨ d = 0) := by
    push_neg
    exact ⟨hp.ne', hv.ne', hd.ne'⟩
  have hsome : (calculateVolatilityRange (some p) (some v) (some d)).isSome = true := by
    simp [calculateVolatilityRange, hcond]
  have hlow1 : (bandOf p v d).oneSigma.lower =
      round2 (p - p * v * Real.sqrt (d / 365)) := by
    simp [bandOf, calculateVolatilityRange, hcond]
  have hup1 : (bandOf p v d).oneSigma.upper =
      round2 (p + p * v * Real.sqrt (d / 365)) := by
    simp [bandOf, calculateVolatilityRange, hcond]
  have hlow2 : (bandOf p v d).twoSigma.lower =
      round2 (p - p * v * Real.sqrt (d / 365) * 2) := by
    simp [bandOf, calculateVolatilityRange, hcond]
  have hup2 : (bandOf p v d).twoSigma.upper =
      round2 (p + p * v * Real.sqrt (d / 365) * 2) := by
    simp [bandOf, calculateVolatilityRange, hcond]
  have hmv1 : (bandOf p v d).oneSigma.move =
      round2 (p * v * Real.sqrt (d / 365)) := by
    simp [bandOf, calculateVolatilityRange, hcond]
  have hmv2 : (bandOf p v d).twoSigma.move =
      round2 (p * v * Real.sqrt (d / 365) * 2) := by
    simp [bandOf, calculateVolatilityRange, hcond]
  set m := p * v * Real.sqrt (d / 365) with hmdef
  have c1 := abs_le.1 (round2_close (p - m))
  have c2 := abs_le.1 (round2_close (p + m))
  have c3 := abs_le.1 (round2_close (p - m * 2))
  have c4 := abs_le.1 (round2_close (p + m * 2))
  refine ⟨hsome, ?_, ?_, ?_, ?_, hmv1, hmv2⟩
  · rw [hlow1]; linarith [c1.1, c1.2]
  · rw [hup1]; linarith [c2.1, c2.2]
  · rw [hlow1, hlow2]; linarith [c1.1, c1.2, c3.1, c3.2]
  · rw [hup1, hup2]; linarith [c2.1, c2.2, c4.1, c4.2]

theorem computeBand_strict_bounds_rounded_witness :
    (calculateVolatilityRange (some 100) (some (35/100)) (some 365)).isSome = true ∧
    (bandOf 100 (35/100) 365).oneSigma.lower < 100 := by
  have hsq : Real.sqrt ((365 : ℝ) / 365) = 1 := by
    norm_num [Real.sqrt_one]
  have h := computeBand_strict_bounds_rounded 100 (35/100) 365
    (by norm_num) (by norm_num) (by norm_num) (by rw [hsq]; norm_num)
  exact ⟨h.1, h.2.1⟩

/-- Claim C6 counterexample: at price 100, iv 0.00001 (> 0), dte 365 (> 0)
the RETURNED band has `lower = 100 = price` (not `lower < price`), because
the source rounds the bounds to 2 decimals, and the returned move is 0,
not the exact `price·iv·√(dte/365) = 0.001`.  The claim as stated (strict
bounds and exact move for ALL positive inputs) is false. -/
theorem rounded_band_can_collapse :
    (calculateVolatilityRange (some 100) (some (1/100000)) (some 365)).isSome
      = true ∧
    c6Band.oneSigma.lower = 100 ∧
    ¬ (c6Band.oneSigma.lower < 100) ∧
    c6Band.oneSigma.move = 0 ∧
    c6Band.oneSigma.move ≠ 100 * (1/100000) * Real.sqrt ((365 : ℝ) / 365) := by
  have hcond : ¬ ((100 : ℝ) = 0 ∨ (1/100000 : ℝ) = 0 ∨ (365 : ℝ) = 0) := by
    norm_num
  have hsq : Real.sqrt ((365 : ℝ) / 365) = 1 := by
    norm_num [Real.sqrt_one]
  have hm : (100 : ℝ) * (1/100000) * Real.sqrt ((365 : ℝ) / 365) = 1/1000 := by
    rw [hsq]; norm_num
  have hlow : c6Band.oneSigma.lower =
      round2 (100 - 100 * (1/100000) * Real.sqrt ((365 : ℝ) / 365)) := by
    simp [c6Band, bandOf, calculateVolatilityRange, hcond]
  have hmove : c6Band.oneSigma.move =
      round2 (100 * (1/100000) * Real.sqrt ((365 : ℝ) / 365)) := by
    simp [c6Band, bandOf, calculateVolatilityRange, hcond]
  have hlowval : c6Band.oneSigma.lower = 100 := by
    rw [hlow, hm]
    have h9 : ((100 : ℝ) - 1/1000) * 100 = 9999 + 9/10 := by norm_num
    rw [round2, h9]
    norm_num [round_eq, Int.floor_eq_iff]
  have hmoveval : c6Band.oneSigma.move = 0 := by
    rw [hmove, hm]
    have h9 : ((1 : ℝ)/1000) * 100 = 1/10 := by norm_num
    rw [round2, h9]
    norm_num [round_eq, Int.floor_eq_iff]
  refine ⟨?_, hlowval, by rw [hlowval]; norm_num, hmoveval, ?_⟩
  · simp [calculateVolatilityRange, hcond]
  · rw [hmoveval, hm]
    norm_num

end OptionFlow
